import Mathlib

/-!
Verification of the kairos-sdk partition-encryption core against its
natural-language specification.  The Go sources under `ghw/` and `kcrypt/`
are shallowly embedded as executable Lean functions over explicit
environment records (pure models of the filesystem tree, the udev
database, subprocess outcomes and plugin-bus responses).  Theorems below
settle the frozen claims C1..C10.
-/

namespace KairosSpec

/- ## String helpers (Go strings package semantics, on explicit char lists)

We avoid the built-in String splitting functions and implement the handful
of Go string operations the sources use (HasPrefix, Contains, TrimSpace,
Split, Fields, SplitN on the first separator) as structural recursions, so
that every definition evaluates by kernel reduction. -/

def isSpaceChar (c : Char) : Bool :=
  c = ' ' || c = '\t' || c = '\n' || c = '\r'

/-- Go strings.HasPrefix on char lists: first argument starts with second. -/
def startsWithL : List Char → List Char → Bool
  | _, [] => true
  | [], _ :: _ => false
  | c :: cs, d :: ds => c = d && startsWithL cs ds

/-- Go strings.Contains on char lists. -/
def containsSubL : List Char → List Char → Bool
  | [], needle => needle.isEmpty
  | c :: t, needle => startsWithL (c :: t) needle || containsSubL t needle

def strStartsWith (s p : String) : Bool := startsWithL s.toList p.toList

def strContains (s p : String) : Bool := containsSubL s.toList p.toList

/-- Go strings.TrimSpace (restricted to the ASCII whitespace the sources meet). -/
def trimL (l : List Char) : List Char :=
  ((l.dropWhile isSpaceChar).reverse.dropWhile isSpaceChar).reverse

def strTrimF (s : String) : String := String.mk (trimL s.toList)

/-- Go strings.Split with a one-character separator. -/
def splitOnChar (sep : Char) : List Char → List (List Char)
  | [] => [[]]
  | c :: t =>
    let r := splitOnChar sep t
    if c = sep then [] :: r
    else
      match r with
      | h :: rest => (c :: h) :: rest
      | [] => [[c]]

/-- Split at every character satisfying a predicate. -/
def splitOnPred (p : Char → Bool) : List Char → List (List Char)
  | [] => [[]]
  | c :: t =>
    let r := splitOnPred p t
    if p c then [] :: r
    else
      match r with
      | h :: rest => (c :: h) :: rest
      | [] => [[c]]

/-- Go strings.Fields: split on runs of whitespace, dropping empty pieces. -/
def fieldsOf (l : List Char) : List (List Char) :=
  (splitOnPred isSpaceChar l).filter fun x => !x.isEmpty

/-- Go strings.SplitN(s, "=", 2): chars before the first '=' and after it. -/
def breakAtEq : List Char → Option (List Char × List Char)
  | [] => none
  | c :: t =>
    if c = '=' then some ([], t)
    else (breakAtEq t).map fun p => (c :: p.1, p.2)

/-- Go strconv.ParseUint(s, 10, 64), modelled on Nat (no overflow in any
input the claims exercise). -/
def parseNatL (l : List Char) : Option Nat :=
  if l = [] then none
  else if l.all (fun c => c.isDigit) then
    some (l.foldl (fun acc c => acc * 10 + (c.toNat - 48)) 0)
  else none

/- ## Block-device resolver model (ghw/ghw.go, ghw/partitions.go,
ghw/disk_partition_handler.go)

The resolver is a pure function of the filesystem subtree rooted at the
configured chroot.  `GhwFS` records exactly the observations the Go code
makes: the listing of sys/block, per-disk sub-listings and holders
listings, the contents of the size/dev files, the udev database files and
the lines of proc/mounts.  A `none` contents means the corresponding read
fails. -/

structure GhwFS where
  blockDirs : List String
  subdirs : String → List String
  holdersOf : String → List String
  sizeFile : String → Option String
  devFile : String → Option String
  udevFile : String → Option String
  mountLines : List String

/-- One parsed E:KEY=VALUE line of a udev database file. -/
def parseUdevLineF (l : List Char) : Option (String × String) :=
  match l with
  | 'E' :: ':' :: rest =>
    match breakAtEq rest with
    | some p => some (String.mk p.1, String.mk p.2)
    | none => none
  | _ => none

/-- UdevInfo parsing: keep the E:-prefixed lines that split on '='. -/
def udevParseF (contents : String) : List (String × String) :=
  (splitOnChar '\n' contents.toList).filterMap parseUdevLineF

/-- Go map lookup where later writes win (insertion into a map). -/
def lookupKey (info : List (String × String)) (k : String) : Option String :=
  info.foldl (fun acc p => if p.1 = k then some p.2 else acc) none

/-- UdevInfo: read run/udev/data/b&lt;devNo&gt; and parse it. -/
def UdevInfoF (fs : GhwFS) (devNo : String) : Option (List (String × String)) :=
  (fs.udevFile ("b" ++ strTrimF devNo)).map udevParseF

/-- udevInfoPartition: read the dev file of a sys-block path, then UdevInfo. -/
def udevInfoPartitionF (fs : GhwFS) (path : String) :
    Option (List (String × String)) :=
  match fs.devFile path with
  | none => none
  | some devNo => UdevInfoF fs devNo

def sectorSize : Nat := 512

/-- diskSizeBytes / partitionSizeBytes: 512-byte sectors times 512,
zero on any read or parse failure. -/
def sizeBytesF (fs : GhwFS) (path : String) : Nat :=
  match fs.sizeFile path with
  | none => 0
  | some c =>
    match parseNatL (trimL c.toList) with
    | none => 0
    | some n => n * sectorSize

def UNKNOWN : String := "unknown"

/-- diskUUID: ID_PART_TABLE_UUID from udev, "unknown" otherwise. -/
def diskUUIDF (fs : GhwFS) (path : String) : String :=
  match udevInfoPartitionF fs path with
  | none => UNKNOWN
  | some info => (lookupKey info "ID_PART_TABLE_UUID").getD UNKNOWN

/-- diskPartUUID: ID_PART_ENTRY_UUID from udev, "unknown" otherwise. -/
def diskPartUUIDF (fs : GhwFS) (path : String) : String :=
  match udevInfoPartitionF fs path with
  | none => UNKNOWN
  | some info => (lookupKey info "ID_PART_ENTRY_UUID").getD UNKNOWN

/-- diskPartTypeUdev: ID_FS_TYPE from udev, "unknown" otherwise. -/
def diskPartTypeUdevF (fs : GhwFS) (path : String) : String :=
  match udevInfoPartitionF fs path with
  | none => UNKNOWN
  | some info => (lookupKey info "ID_FS_TYPE").getD UNKNOWN

/-- diskFSLabel: ID_FS_LABEL from udev, "unknown" otherwise. -/
def diskFSLabelF (fs : GhwFS) (path : String) : String :=
  match udevInfoPartitionF fs path with
  | none => UNKNOWN
  | some info => (lookupKey info "ID_FS_LABEL").getD UNKNOWN

structure MountEntry where
  dev : String
  mountpoint : String
  fstype : String
deriving DecidableEq, Repr

/-- The GNU mtab octal escapes decoded in a mountpoint field. -/
def decodeMnt : List Char → List Char
  | '\\' :: '0' :: '1' :: '1' :: t => '\t' :: decodeMnt t
  | '\\' :: '0' :: '1' :: '2' :: t => '\n' :: decodeMnt t
  | '\\' :: '0' :: '4' :: '0' :: t => ' ' :: decodeMnt t
  | '\\' :: '\\' :: t => '\\' :: decodeMnt t
  | c :: t => c :: decodeMnt t
  | [] => []

/-- parseMountEntry.  (Go indexes line[0]; proc/mounts lines are never
empty, and an empty line is mapped to no entry here.) -/
def parseMountEntryF (line : List Char) : Option MountEntry :=
  match line with
  | [] => none
  | c :: _ =>
    if c ≠ '/' then none
    else
      let fields := fieldsOf line
      if fields.length < 4 then none
      else
        match fields with
        | f0 :: f1 :: f2 :: _ => some ⟨String.mk f0, String.mk (decodeMnt f1), String.mk f2⟩
        | _ => none

/-- partitionInfo: first proc/mounts entry whose device field matches. -/
def findMount : List String → String → String × String
  | [], _ => ("", "")
  | l :: ls, part =>
    match parseMountEntryF l.toList with
    | some e => if e.dev = part then (e.mountpoint, e.fstype) else findMount ls part
    | none => findMount ls part

def partitionInfoF (fs : GhwFS) (part : String) : String × String :=
  let part := if strStartsWith part "/dev" then part else "/dev/" ++ part
  findMount fs.mountLines part

structure GPartition where
  name : String
  size : Nat
  mountPoint : String
  uuid : String
  filesystemLabel : String
  fs : String
  path : String
  disk : String
deriving DecidableEq, Repr

structure GDisk where
  name : String
  sizeBytes : Nat
  uuid : String
  partitions : List GPartition
deriving DecidableEq, Repr

/-- isMultipathDevice: dm- prefixed name whose udev DM_UUID value contains
the substring "mpath". -/
def isMultipathDeviceF (fs : GhwFS) (name : String) : Bool :=
  if !strStartsWith name "dm-" then false
  else
    match udevInfoPartitionF fs name with
    | none => false
    | some info =>
      match lookupKey info "DM_UUID" with
      | none => false
      | some uuid => strContains uuid "mpath"

/-- isMultipathPartition: a multipath device whose udev record also has a
DM_PART key. -/
def isMultipathPartitionF (fs : GhwFS) (name : String) : Bool :=
  isMultipathDeviceF fs name &&
    (match udevInfoPartitionF fs name with
     | none => false
     | some info => (lookupKey info "DM_PART").isSome)

/-- DiskPartitionHandler.GetPartitions: sub-entries of the disk directory
whose names start with the disk name. -/
def diskHandlerGetPartitions (fs : GhwFS) (diskName : String) : List GPartition :=
  (fs.subdirs diskName).filterMap fun fname =>
    if !strStartsWith fname diskName then none
    else
      let partitionPath := diskName ++ "/" ++ fname
      let size := sizeBytesF fs partitionPath
      let mpt := partitionInfoF fs fname
      let du := diskPartUUIDF fs partitionPath
      let pt := if mpt.2 = "" then diskPartTypeUdevF fs partitionPath else mpt.2
      let fsLabel := diskFSLabelF fs partitionPath
      some ⟨fname, size / (1024 * 1024), mpt.1, du, fsLabel, pt,
            "/dev/" ++ fname, "/dev/" ++ diskName⟩

/-- MultipathPartitionHandler.GetPartitions body: walk the holders of the
parent; a udev read failure aborts the walk (Go returns the list built so
far), a missing DM_NAME skips the holder. -/
def mpHolderWalk (fs : GhwFS) (diskName : String) : List String → List GPartition
  | [] => []
  | partName :: rest =>
    if !isMultipathDeviceF fs partName then mpHolderWalk fs diskName rest
    else if !isMultipathPartitionF fs partName then mpHolderWalk fs diskName rest
    else
      match udevInfoPartitionF fs partName with
      | none => []
      | some info =>
        match lookupKey info "DM_NAME" with
        | none => mpHolderWalk fs diskName rest
        | some mapperName =>
          let size := sizeBytesF fs partName
          let du := diskPartUUIDF fs partName
          let r1 := partitionInfoF fs ("/dev/mapper/" ++ mapperName)
          let mpt := if r1.1 ≠ "" then r1 else partitionInfoF fs ("/dev/" ++ partName)
          let pt := if mpt.2 = "" then diskPartTypeUdevF fs partName else mpt.2
          let fsLabel := diskFSLabelF fs partName
          ⟨partName, size / (1024 * 1024), mpt.1, du, fsLabel, pt,
           "/dev/" ++ partName, "/dev/" ++ diskName⟩ :: mpHolderWalk fs diskName rest

def multipathHandlerGetPartitions (fs : GhwFS) (diskName : String) : List GPartition :=
  mpHolderWalk fs diskName (fs.holdersOf diskName)

/-- One iteration of the GetDisks loop: skip multipath partitions and
size-zero loop devices, otherwise build the disk with the handler matching
the classification. -/
def getDisksEntry (fs : GhwFS) (dname : String) : Option GDisk :=
  if isMultipathPartitionF fs dname then none
  else if strStartsWith dname "loop" && sizeBytesF fs dname = 0 then none
  else
    some ⟨dname, sizeBytesF fs dname, diskUUIDF fs dname,
      if isMultipathDeviceF fs dname then multipathHandlerGetPartitions fs dname
      else diskHandlerGetPartitions fs dname⟩

/-- GetDisks: enumerate the sys/block listing. -/
def GetDisksF (fs : GhwFS) : List GDisk :=
  fs.blockDirs.filterMap (getDisksEntry fs)

/-- Does the udev record reachable from a sys-block entry contain a key? -/
def udevHasKey (fs : GhwFS) (name key : String) : Bool :=
  match udevInfoPartitionF fs name with
  | none => false
  | some info => (lookupKey info key).isSome

/- ## Claim C4: multipath exclusion -/

/-- Claim C4 as stated: any sys-block entry whose udev record contains a
DM_PART key is never emitted as a top-level disk. -/
def claimC4Statement : Prop :=
  ∀ (fs : GhwFS), ∀ name ∈ fs.blockDirs,
    udevHasKey fs name "DM_PART" = true →
      name ∉ (GetDisksF fs).map GDisk.name

/-- A sys-block tree with a single dm entry carrying DM_PART but no
DM_UUID (the shape of a device-mapper partition of a non-multipath parent,
for example a LUKS container): GetDisks does not skip it. -/
def fsC4 : GhwFS :=
  ⟨["dm-1"],
   fun _ => [],
   fun _ => [],
   fun p => if p = "dm-1" then some "2048" else none,
   fun p => if p = "dm-1" then some "253:1\n" else none,
   fun f => if f = "b253:1" then some "E:DM_PART=1\n" else none,
   []⟩

/-- Claim C4 is false on the code: the DM_PART skip in GetDisks only fires
for entries already classified as multipath devices (dm- prefix and a
DM_UUID containing "mpath"); an entry with DM_PART but no matching DM_UUID
is emitted as a top-level disk. -/
theorem multipath_exclusion_counterexample : ¬ claimC4Statement := by
  intro h
  exact h fsC4 "dm-1" (by decide) (by decide) (by decide)

/-- Claim C4 amended: no entry classified as a multipath partition (dm-
prefix, udev DM_UUID containing "mpath", and a DM_PART key) is emitted as
a top-level disk by GetDisks. -/
theorem multipath_exclusion_amended (fs : GhwFS) (name : String)
    (h : isMultipathPartitionF fs name = true) :
    name ∉ (GetDisksF fs).map GDisk.name := by
  intro hmem
  rcases List.mem_map.mp hmem with ⟨g, hg, hgname⟩
  rcases List.mem_filterMap.mp hg with ⟨d, -, hd⟩
  have hname : g.name = d := by
    unfold getDisksEntry at hd
    split at hd
    · exact absurd hd (by simp)
    · split at hd
      · exact absurd hd (by simp)
      · cases hd
        rfl
  have hdn : d = name := by rw [← hname, hgname]
  subst hdn
  unfold getDisksEntry at hd
  simp [h] at hd

/-- A tree where dm-1 is a genuine multipath partition (DM_UUID contains
"mpath", DM_PART present) held by the multipath parent dm-0. -/
def fsC4w : GhwFS :=
  ⟨["dm-0", "dm-1"],
   fun _ => [],
   fun d => if d = "dm-0" then ["dm-1"] else [],
   fun p => if p = "dm-0" then some "4096" else if p = "dm-1" then some "2048" else none,
   fun p => if p = "dm-0" then some "253:0\n" else if p = "dm-1" then some "253:1\n" else none,
   fun f =>
     if f = "b253:0" then some "E:DM_UUID=mpath-xyz\n"
     else if f = "b253:1" then some "E:DM_UUID=part1-mpath-xyz\nE:DM_PART=1\nE:DM_NAME=mpath0p1\n"
     else none,
   []⟩

/-- Witness for the amended C4 at a concrete tree. -/
theorem multipath_exclusion_amended_witness :
    isMultipathPartitionF fsC4w "dm-1" = true ∧
      "dm-1" ∉ (GetDisksF fsC4w).map GDisk.name :=
  ⟨by decide, multipath_exclusion_amended fsC4w "dm-1" (by decide)⟩

/- ## Claim C5: multipath partition handler verification -/

/-- Claim C5 as stated: every holder the multipath handler accepts has a
udev DM_UUID value that BEGINS with "mpath", and a DM_PART key. -/
def claimC5Statement : Prop :=
  ∀ (fs : GhwFS) (parent : String), ∀ p ∈ multipathHandlerGetPartitions fs parent,
    ∃ info, udevInfoPartitionF fs p.name = some info ∧
      (∃ u, lookupKey info "DM_UUID" = some u ∧ strStartsWith u "mpath" = true) ∧
      (lookupKey info "DM_PART").isSome = true

/-- Multipath parent dm-0 holding partition dm-1 whose DM_UUID is
"part1-mpath-123" — the usual shape of a multipath partition, which only
CONTAINS "mpath". -/
def fsC5 : GhwFS :=
  ⟨["dm-0", "dm-1"],
   fun _ => [],
   fun d => if d = "dm-0" then ["dm-1"] else [],
   fun p => if p = "dm-1" then some "1024" else if p = "dm-0" then some "4096" else none,
   fun p => if p = "dm-0" then some "253:0\n" else if p = "dm-1" then some "253:1\n" else none,
   fun f =>
     if f = "b253:0" then some "E:DM_UUID=mpath-123\n"
     else if f = "b253:1" then
       some "E:DM_UUID=part1-mpath-123\nE:DM_PART=1\nE:DM_NAME=mpath0p1\nE:ID_FS_LABEL=DATA\n"
     else none,
   []⟩

/-- The partition record the multipath handler produces for dm-1 in fsC5. -/
def pC5 : GPartition :=
  ⟨"dm-1", 0, "", "unknown", "DATA", "unknown", "/dev/dm-1", "/dev/dm-0"⟩

/-- The parsed udev record of dm-1 in fsC5. -/
def infoC5 : List (String × String) :=
  [("DM_UUID", "part1-mpath-123"), ("DM_PART", "1"), ("DM_NAME", "mpath0p1"),
   ("ID_FS_LABEL", "DATA")]

/-- Claim C5 is false on the code: the handler checks that DM_UUID
CONTAINS "mpath" (isMultipathDevice uses a substring match precisely
because partition DM_UUIDs look like part1-mpath-...), so it accepts dm-1
whose DM_UUID does not begin with "mpath". -/
theorem multipath_holder_check_counterexample : ¬ claimC5Statement := by
  intro h
  rcases h fsC5 "dm-0" pC5 (by decide) with ⟨info, hinfo, ⟨u, hu, hstart⟩, -⟩
  have hL : udevInfoPartitionF fsC5 "dm-1" = some infoC5 := by decide
  have hinfo2 : some infoC5 = some info := hL.symm.trans hinfo
  injection hinfo2 with hie
  subst hie
  have hu2 : lookupKey infoC5 "DM_UUID" = some "part1-mpath-123" := by decide
  rw [hu2] at hu
  injection hu with hue
  subst hue
  exact absurd hstart (by decide)

/-- udev record facts behind a positive isMultipathDevice check. -/
theorem isMultipathDevice_spec (fs : GhwFS) (n : String)
    (h : isMultipathDeviceF fs n = true) :
    ∃ info, udevInfoPartitionF fs n = some info ∧
      ∃ u, lookupKey info "DM_UUID" = some u ∧ strContains u "mpath" = true := by
  unfold isMultipathDeviceF at h
  split at h
  · exact absurd h (by simp)
  · split at h
    · exact absurd h (by simp)
    · rename_i info heq
      split at h
      · exact absurd h (by simp)
      · rename_i u hueq
        exact ⟨info, heq, u, hueq, h⟩

/-- udev record facts behind a positive isMultipathPartition check. -/
theorem isMultipathPartition_spec (fs : GhwFS) (n : String)
    (h : isMultipathPartitionF fs n = true) :
    isMultipathDeviceF fs n = true ∧
      ∃ info, udevInfoPartitionF fs n = some info ∧
        (lookupKey info "DM_PART").isSome = true := by
  unfold isMultipathPartitionF at h
  rcases Bool.and_eq_true _ _ |>.mp h with ⟨h1, h2⟩
  refine ⟨h1, ?_⟩
  split at h2
  · exact absurd h2 (by simp)
  · rename_i info heq
    exact ⟨info, heq, h2⟩

/-- Every partition the multipath holder walk emits passed both checks. -/
theorem mpHolderWalk_mem (fs : GhwFS) (dn : String) :
    ∀ (hs : List String) (p : GPartition), p ∈ mpHolderWalk fs dn hs →
      isMultipathDeviceF fs p.name = true ∧ isMultipathPartitionF fs p.name = true := by
  intro hs
  induction hs with
  | nil =>
    intro p hp
    simp [mpHolderWalk] at hp
  | cons hd tl ih =>
    intro p hp
    unfold mpHolderWalk at hp
    split at hp
    · exact ih p hp
    · split at hp
      · exact ih p hp
      · rename_i h1 h2
        split at hp
        · simp at hp
        · split at hp
          · exact ih p hp
          · rcases List.mem_cons.mp hp with rfl | hmem
            · constructor
              · simpa using h1
              · simpa using h2
            · exact ih p hmem

/-- Claim C5 amended: every holder the multipath handler accepts as a
partition has a udev DM_UUID value CONTAINING "mpath" and a DM_PART key
(holders failing either check are skipped). -/
theorem multipath_holder_check_amended (fs : GhwFS) (parent : String) (p : GPartition)
    (hp : p ∈ multipathHandlerGetPartitions fs parent) :
    ∃ info, udevInfoPartitionF fs p.name = some info ∧
      (∃ u, lookupKey info "DM_UUID" = some u ∧ strContains u "mpath" = true) ∧
      (lookupKey info "DM_PART").isSome = true := by
  have hchecks := mpHolderWalk_mem fs parent (fs.holdersOf parent) p hp
  rcases isMultipathDevice_spec fs p.name hchecks.1 with ⟨info, hinfo, u, hu, hc⟩
  rcases isMultipathPartition_spec fs p.name hchecks.2 with ⟨-, info2, hinfo2, hpart⟩
  have he : info2 = info := by
    have := hinfo2.symm.trans hinfo
    injection this
  exact ⟨info, hinfo, ⟨u, hu, hc⟩, he ▸ hpart⟩

/-- Witness for the amended C5: the handler accepts dm-1 in fsC5 and the
amended record facts hold of it. -/
theorem multipath_holder_check_amended_witness :
    pC5 ∈ multipathHandlerGetPartitions fsC5 "dm-0" ∧
      (∃ info, udevInfoPartitionF fsC5 pC5.name = some info ∧
        (∃ u, lookupKey info "DM_UUID" = some u ∧ strContains u "mpath" = true) ∧
        (lookupKey info "DM_PART").isSome = true) :=
  ⟨by decide, multipath_holder_check_amended fsC5 "dm-0" pC5 (by decide)⟩

/- ## Claim C10: the "unknown" sentinel for missing udev fields -/

/-- Every partition the multipath holder walk emits carries the label
computed by diskFSLabel at its own sys-block path. -/
theorem mpHolderWalk_label (fs : GhwFS) (dn : String) :
    ∀ (hs : List String) (p : GPartition), p ∈ mpHolderWalk fs dn hs →
      p.filesystemLabel = diskFSLabelF fs p.name := by
  intro hs
  induction hs with
  | nil =>
    intro p hp
    simp [mpHolderWalk] at hp
  | cons hd tl ih =>
    intro p hp
    unfold mpHolderWalk at hp
    split at hp
    · exact ih p hp
    · split at hp
      · exact ih p hp
      · split at hp
        · simp at hp
        · split at hp
          · exact ih p hp
          · rcases List.mem_cons.mp hp with rfl | hmem
            · rfl
            · exact ih p hmem

/-- Claim C10: a partition whose udev record lacks ID_FS_LABEL gets the
sentinel "unknown" (never the empty string), and the same sentinel backs
missing ID_PART_ENTRY_UUID and ID_FS_TYPE; both partition handlers set
the public FilesystemLabel field from diskFSLabel. -/
theorem unknown_label_sentinel :
    (∀ (fs : GhwFS) (path : String),
       (∀ info, udevInfoPartitionF fs path = some info →
          lookupKey info "ID_FS_LABEL" = none) →
       diskFSLabelF fs path = UNKNOWN)
    ∧ (∀ (fs : GhwFS) (path : String),
         (∀ info, udevInfoPartitionF fs path = some info →
            lookupKey info "ID_PART_ENTRY_UUID" = none) →
         diskPartUUIDF fs path = UNKNOWN)
    ∧ (∀ (fs : GhwFS) (path : String),
         (∀ info, udevInfoPartitionF fs path = some info →
            lookupKey info "ID_FS_TYPE" = none) →
         diskPartTypeUdevF fs path = UNKNOWN)
    ∧ (∀ (fs : GhwFS) (d : String), ∀ p ∈ diskHandlerGetPartitions fs d,
         p.filesystemLabel = diskFSLabelF fs (d ++ "/" ++ p.name))
    ∧ (∀ (fs : GhwFS) (d : String), ∀ p ∈ multipathHandlerGetPartitions fs d,
         p.filesystemLabel = diskFSLabelF fs p.name)
    ∧ UNKNOWN ≠ "" := by
  refine ⟨?_, ?_, ?_, ?_, ?_, by decide⟩
  · intro fs path hmiss
    unfold diskFSLabelF
    cases h : udevInfoPartitionF fs path with
    | none => rfl
    | some info => simp [hmiss info h]
  · intro fs path hmiss
    unfold diskPartUUIDF
    cases h : udevInfoPartitionF fs path with
    | none => rfl
    | some info => simp [hmiss info h]
  · intro fs path hmiss
    unfold diskPartTypeUdevF
    cases h : udevInfoPartitionF fs path with
    | none => rfl
    | some info => simp [hmiss info h]
  · intro fs d p hp
    rcases List.mem_filterMap.mp hp with ⟨fname, -, hf⟩
    split at hf
    · exact absurd hf (by simp)
    · cases hf
      rfl
  · intro fs d p hp
    exact mpHolderWalk_label fs d (fs.holdersOf d) p hp

/-- A disk sda whose partition sda1 has a udev record with no ID_FS_LABEL
and no ID_FS_TYPE. -/
def fsC10 : GhwFS :=
  ⟨["sda"],
   fun d => if d = "sda" then ["sda1"] else [],
   fun _ => [],
   fun p => if p = "sda" then some "100" else if p = "sda/sda1" then some "50" else none,
   fun p => if p = "sda" then some "8:0\n" else if p = "sda/sda1" then some "8:1\n" else none,
   fun f => if f = "b8:1" then some "E:ID_PART_ENTRY_UUID=666\n" else none,
   []⟩

/-- The partition record the regular handler produces for sda1 in fsC10. -/
def pC10 : GPartition :=
  ⟨"sda1", 0, "", "666", "unknown", "unknown", "/dev/sda1", "/dev/sda"⟩

/-- Witness for C10 at a concrete tree: the label-less partition sda1 is
reported with FilesystemLabel "unknown". -/
theorem unknown_label_sentinel_witness :
    diskFSLabelF fsC10 "sda/sda1" = UNKNOWN ∧
      pC10 ∈ diskHandlerGetPartitions fsC10 "sda" ∧
      pC10.filesystemLabel = diskFSLabelF fsC10 ("sda" ++ "/" ++ pC10.name) := by
  refine ⟨?_, by decide, ?_⟩
  · apply unknown_label_sentinel.1 fsC10 "sda/sda1"
    intro info h
    rw [show udevInfoPartitionF fsC10 "sda/sda1" =
          some [("ID_PART_ENTRY_UUID", "666")] from by decide] at h
    injection h with he
    subst he
    decide
  · exact unknown_label_sentinel.2.2.2.1 fsC10 "sda" pC10 (by decide)

/- ## kcrypt configuration model (kcrypt/bus/payload.go, kcrypt/config.go) -/

structure KcryptConfig where
  challengerServer : String
  mdns : Bool
  certificate : String
  nvIndex : String
  cIndex : String
  tpmDevice : String
deriving DecidableEq, Repr

def emptyKcryptConfig : KcryptConfig := ⟨"", false, "", "", "", ""⟩

/- ## Claim C1: selector decision -/

inductive EncryptorKind where
  | remoteKMS
  | tpmWithPCR
  | localTPMNV
deriving DecidableEq, Repr

/-- GetEncryptor decision logic (kcrypt/encryptor.go): remote KMS when a
scanned config has a challenger server or mdns, else TPM+PCR under UKI,
else local TPM NV.  A `none` config models a failed or empty scan. -/
def getEncryptorChoice (kcryptConfig : Option KcryptConfig) (isUKI : Bool) :
    EncryptorKind :=
  let useRemoteKMS :=
    match kcryptConfig with
    | some c => c.challengerServer != "" || c.mdns
    | none => false
  if useRemoteKMS then .remoteKMS
  else if isUKI then .tpmWithPCR
  else .localTPMNV

/-- Claim C1: the selector returns remote KMS exactly when the config has
a non-empty challenger_server or mdns set; otherwise TPM+PCR when UKI;
otherwise local TPM NV. -/
theorem selector_decision_confirmed (cfg : Option KcryptConfig) (uki : Bool) :
    (getEncryptorChoice cfg uki = .remoteKMS ↔
       ∃ c, cfg = some c ∧ (c.challengerServer ≠ "" ∨ c.mdns = true))
    ∧ ((∀ c, cfg = some c → c.challengerServer = "" ∧ c.mdns = false) →
         uki = true → getEncryptorChoice cfg uki = .tpmWithPCR)
    ∧ ((∀ c, cfg = some c → c.challengerServer = "" ∧ c.mdns = false) →
         uki = false → getEncryptorChoice cfg uki = .localTPMNV) := by
  cases cfg with
  | none =>
    refine ⟨?_, ?_, ?_⟩
    · constructor
      · intro h
        cases uki <;> simp [getEncryptorChoice] at h
      · rintro ⟨c, hc, -⟩
        cases hc
    · intro _ hu
      subst hu
      rfl
    · intro _ hu
      subst hu
      rfl
  | some c =>
    cases hb : (c.challengerServer != "" || c.mdns) with
    | true =>
      have hchoice : getEncryptorChoice (some c) uki = .remoteKMS := by
        simp [getEncryptorChoice, hb]
      rcases Bool.or_eq_true _ _ |>.mp hb with h1 | h2
      · exact ⟨⟨fun _ => ⟨c, rfl, Or.inl (bne_iff_ne.mp h1)⟩, fun _ => hchoice⟩,
          fun hall _ => absurd (hall c rfl).1 (bne_iff_ne.mp h1),
          fun hall _ => absurd (hall c rfl).1 (bne_iff_ne.mp h1)⟩
      · refine ⟨⟨fun _ => ⟨c, rfl, Or.inr h2⟩, fun _ => hchoice⟩, ?_, ?_⟩
        · intro hall _
          rw [(hall c rfl).2] at h2
          cases h2
        · intro hall _
          rw [(hall c rfl).2] at h2
          cases h2
    | false =>
      have hS : c.challengerServer = "" := by
        have h1 := (Bool.or_eq_false_iff.mp hb).1
        simpa [bne_iff_ne] using h1
      have hm : c.mdns = false := (Bool.or_eq_false_iff.mp hb).2
      refine ⟨?_, ?_, ?_⟩
      · constructor
        · intro h
          exfalso
          cases uki <;> simp [getEncryptorChoice, hb] at h
        · rintro ⟨c2, hc2, hcond⟩
          injection hc2 with hc2e
          subst hc2e
          rcases hcond with h1 | h2
          · exact absurd hS h1
          · rw [hm] at h2
            cases h2
      · intro _ hu
        subst hu
        simp [getEncryptorChoice, hb]
      · intro _ hu
        subst hu
        simp [getEncryptorChoice, hb]

/-- Witness for C1 at the three concrete decision inputs. -/
theorem selector_decision_witness :
    getEncryptorChoice (some ⟨"kms.example", false, "", "", "", ""⟩) false =
        .remoteKMS ∧
      getEncryptorChoice (some emptyKcryptConfig) true = .tpmWithPCR ∧
      getEncryptorChoice none false = .localTPMNV :=
  ⟨(selector_decision_confirmed (some ⟨"kms.example", false, "", "", "", ""⟩) false).1.mpr
      ⟨_, rfl, Or.inl (by decide)⟩,
   (selector_decision_confirmed (some emptyKcryptConfig) true).2.1
      (fun c hc => by cases hc; exact ⟨rfl, rfl⟩) rfl,
   (selector_decision_confirmed none false).2.2 (fun c hc => by cases hc) rfl⟩

/- ## Claim C8: config extractor totality -/

/-- Dynamic values of a merged configuration tree (collector.ConfigValues). -/
inductive CVal where
  | str (s : String)
  | boolV (b : Bool)
  | map (m : List (String × CVal))
  | other

/-- Go map lookup on a dynamic map (later writes win). -/
def cvLookup (m : List (String × CVal)) (k : String) : Option CVal :=
  m.foldl (fun acc p => if p.1 = k then some p.2 else acc) none

/-- Type assertion val.(collector.ConfigValues). -/
def asConfigValues : Option CVal → Option (List (String × CVal))
  | some (CVal.map m) => some m
  | _ => none

/-- Type assertion val.(string). -/
def asStr : Option CVal → Option String
  | some (CVal.str s) => some s
  | _ => none

/-- Type assertion val.(bool). -/
def asBool : Option CVal → Option Bool
  | some (CVal.boolV b) => some b
  | _ => none

/-- extractKcryptConfigFromCollector (kcrypt/config.go): starts from a
zero-valued config and fills fields from the kcrypt section when the
assertions succeed; every early return hands back the (non-nil) config
pointer.  The Option result mirrors the Go pointer type. -/
def extractKcryptConfigFromCollectorF
    (values : Option (List (String × CVal))) : Option KcryptConfig :=
  match values with
  | none => some emptyKcryptConfig
  | some vs =>
    match asConfigValues (cvLookup vs "kcrypt") with
    | none => some emptyKcryptConfig
    | some kcryptMap =>
      let chal := asConfigValues (cvLookup kcryptMap "challenger")
      some ⟨(chal.bind fun ch => asStr (cvLookup ch "challenger_server")).getD "",
            (chal.bind fun ch => asBool (cvLookup ch "mdns")).getD false,
            (chal.bind fun ch => asStr (cvLookup ch "certificate")).getD "",
            (asStr (cvLookup kcryptMap "nv_index")).getD "",
            (asStr (cvLookup kcryptMap "c_index")).getD "",
            (asStr (cvLookup kcryptMap "tpm_device")).getD ""⟩

/-- No kcrypt data: values absent, or no kcrypt key, or kcrypt not a map. -/
def hasNoKcryptSection (values : Option (List (String × CVal))) : Prop :=
  match values with
  | none => True
  | some vs => asConfigValues (cvLookup vs "kcrypt") = none

/-- Claim C8: the extractor always returns a (non-null) config; with no
kcrypt data it returns the fully-defaulted config, which is also what a
present-but-empty kcrypt section yields, so callers cannot tell the two
apart. -/
theorem config_extractor_totality :
    (∀ values, (extractKcryptConfigFromCollectorF values).isSome = true)
    ∧ (∀ values, hasNoKcryptSection values →
        extractKcryptConfigFromCollectorF values = some emptyKcryptConfig)
    ∧ extractKcryptConfigFromCollectorF (some [("kcrypt", CVal.map [])]) =
        some emptyKcryptConfig := by
  refine ⟨?_, ?_, rfl⟩
  · intro values
    cases values with
    | none => rfl
    | some vs =>
      cases h : asConfigValues (cvLookup vs "kcrypt") with
      | none => simp [extractKcryptConfigFromCollectorF, h]
      | some m => simp [extractKcryptConfigFromCollectorF, h]
  · intro values hno
    cases values with
    | none => rfl
    | some vs =>
      have h : asConfigValues (cvLookup vs "kcrypt") = none := hno
      simp [extractKcryptConfigFromCollectorF, h]

/-- Witness for C8: a tree with no kcrypt section extracts to the default
config through the totality theorem. -/
theorem config_extractor_totality_witness :
    extractKcryptConfigFromCollectorF (some [("users", CVal.other)]) =
      some emptyKcryptConfig :=
  config_extractor_totality.2.1 (some [("users", CVal.other)]) rfl

/- ## Claim C9: batch abort on first failure -/

inductive BatchErr where
  | unlockFailed (label : String) (cause : String)
  | encryptFailed (label : String) (cause : String)
deriving DecidableEq, Repr

/-- The per-strategy Unlock loop (kcrypt/encryptor.go): run the per-label
unlock in caller order, wrapping and returning the first failure.  The
second component is the list of labels actually attempted. -/
def unlockBatchRun (step : String → Except String Unit) :
    List String → Except BatchErr Unit × List String
  | [] => (.ok (), [])
  | l :: ls =>
    match step l with
    | .error e => (.error (.unlockFailed l e), [l])
    | .ok _ =>
      let r := unlockBatchRun step ls
      (r.1, l :: r.2)

/-- The per-strategy Encrypt loop, identical shape. -/
def encryptBatchRun (step : String → Except String Unit) :
    List String → Except BatchErr Unit × List String
  | [] => (.ok (), [])
  | l :: ls =>
    match step l with
    | .error e => (.error (.encryptFailed l e), [l])
    | .ok _ =>
      let r := encryptBatchRun step ls
      (r.1, l :: r.2)

theorem unlockBatchRun_abort (step : String → Except String Unit)
    (pre : List String) (l : String) (post : List String) (e : String)
    (hpre : ∀ x ∈ pre, step x = .ok ()) (hl : step l = .error e) :
    unlockBatchRun step (pre ++ l :: post) =
      (.error (.unlockFailed l e), pre ++ [l]) := by
  induction pre with
  | nil => simp [unlockBatchRun, hl]
  | cons x xs ih =>
    have hx : step x = .ok () := hpre x (by simp)
    have ih2 := ih (fun y hy => hpre y (by simp [hy]))
    simp [unlockBatchRun, hx, ih2]

theorem encryptBatchRun_abort (step : String → Except String Unit)
    (pre : List String) (l : String) (post : List String) (e : String)
    (hpre : ∀ x ∈ pre, step x = .ok ()) (hl : step l = .error e) :
    encryptBatchRun step (pre ++ l :: post) =
      (.error (.encryptFailed l e), pre ++ [l]) := by
  induction pre with
  | nil => simp [encryptBatchRun, hl]
  | cons x xs ih =>
    have hx : step x = .ok () := hpre x (by simp)
    have ih2 := ih (fun y hy => hpre y (by simp [hy]))
    simp [encryptBatchRun, hx, ih2]

/-- Claim C9: in both batch loops, the first failing label aborts the
batch with that label wrapped in the returned error; later labels are not
attempted. -/
theorem batch_abort_first_failure (ustep estep : String → Except String Unit)
    (pre : List String) (l : String) (post : List String) (e1 e2 : String)
    (hu : ∀ x ∈ pre, ustep x = .ok ()) (hul : ustep l = .error e1)
    (he : ∀ x ∈ pre, estep x = .ok ()) (hel : estep l = .error e2) :
    unlockBatchRun ustep (pre ++ l :: post) =
        (.error (.unlockFailed l e1), pre ++ [l]) ∧
      encryptBatchRun estep (pre ++ l :: post) =
        (.error (.encryptFailed l e2), pre ++ [l]) :=
  ⟨unlockBatchRun_abort ustep pre l post e1 hu hul,
   encryptBatchRun_abort estep pre l post e2 he hel⟩

/-- A step that fails only on COS_PERSISTENT. -/
def stepC9 : String → Except String Unit :=
  fun s => if s = "COS_PERSISTENT" then .error "boom" else .ok ()

/-- Witness for C9 at a concrete three-label batch. -/
theorem batch_abort_first_failure_witness :
    unlockBatchRun stepC9 ["COS_OEM", "COS_PERSISTENT", "COS_RECOVERY"] =
        (.error (.unlockFailed "COS_PERSISTENT" "boom"),
         ["COS_OEM", "COS_PERSISTENT"]) ∧
      encryptBatchRun stepC9 ["COS_OEM", "COS_PERSISTENT", "COS_RECOVERY"] =
        (.error (.encryptFailed "COS_PERSISTENT" "boom"),
         ["COS_OEM", "COS_PERSISTENT"]) :=
  batch_abort_first_failure stepC9 stepC9 ["COS_OEM"] "COS_PERSISTENT"
    ["COS_RECOVERY"] "boom" "boom"
    (fun x hx => by rcases List.mem_singleton.mp hx; rfl) rfl
    (fun x hx => by rcases List.mem_singleton.mp hx; rfl) rfl

/- ## Claim C7: discovery payload invariant (kcrypt/unlock.go, encryptor.go) -/

/-- The block.Partition fields that travel in the discovery payload. -/
structure BlockPartition where
  name : String
  filesystemLabel : String
  uuid : String
deriving DecidableEq, Repr

/-- bus.DiscoveryPasswordPayload (kcrypt/bus/payload.go): the partition
plus the challenger server address and the mDNS flag. -/
structure DiscoveryPasswordPayload where
  partition : Option BlockPartition
  challengerServer : String
  mdns : Bool
deriving DecidableEq, Repr

/-- What a publish on the kcrypt bus can carry: either the documented
payload envelope or (in the legacy code path) a bare partition record. -/
inductive BusPayload where
  | discovery (p : DiscoveryPasswordPayload)
  | rawPartition (b : BlockPartition)
deriving DecidableEq, Repr

def BusPayload.isDiscovery : BusPayload → Bool
  | .discovery _ => true
  | .rawPartition _ => false

/-- pluggable.EventResponse as observed by the response handler. -/
structure EventResponse where
  data : String
  errMsg : String
deriving DecidableEq, Repr

/-- getPassword of the current unlock.go: builds a DiscoveryPasswordPayload
from the optional scanned config, attaches the partition, publishes it, and
fails when the collected response data is empty.  Returns the published
value and the result. -/
def getPasswordCurrent (b : BlockPartition)
    (kcryptConfig : Option DiscoveryPasswordPayload) (r : EventResponse) :
    BusPayload × Except String String :=
  let payload0 :=
    match kcryptConfig with
    | some c => c
    | none => (⟨none, "", false⟩ : DiscoveryPasswordPayload)
  let payload : DiscoveryPasswordPayload :=
    ⟨some b, payload0.challengerServer, payload0.mdns⟩
  let password := r.data
  if password = "" then (.discovery payload, .error "received empty password")
  else (.discovery payload, .ok password)

/-- getPasswordFromChallenger of encryptor.go: constructs the payload from
the KcryptConfig (empty server and mdns when none) and the partition. -/
def getPasswordFromChallengerF (b : BlockPartition)
    (kcryptConfig : Option KcryptConfig) (r : EventResponse) :
    BusPayload × Except String String :=
  let payload : DiscoveryPasswordPayload :=
    match kcryptConfig with
    | some c => ⟨some b, c.challengerServer, c.mdns⟩
    | none => ⟨some b, "", false⟩
  let password := r.data
  if password = "" then (.discovery payload, .error "received empty password")
  else (.discovery payload, .ok password)

/-- getPassword of the superseded unlock.go revision (cited by the claim):
publishes the bare block.Partition itself, not a payload envelope. -/
def getPasswordLegacy (b : BlockPartition) (r : EventResponse) :
    BusPayload × Except String String :=
  let password := r.data
  if password = "" then (.rawPartition b, .error "received empty password")
  else (.rawPartition b, .ok password)

def partC7 : BlockPartition := ⟨"sda2", "COS_PERSISTENT", "666"⟩

/-- Claim C7 fails on the legacy unlock path: at the concrete partition
sda2 the legacy getPassword publishes the raw partition record (not a
DiscoveryPasswordPayload), while the empty-data failure half of the claim
holds in every variant and the current paths do publish the envelope. -/
theorem discovery_payload_code_bug :
    (getPasswordLegacy partC7 ⟨"pass123", ""⟩).1 = BusPayload.rawPartition partC7 ∧
      (getPasswordLegacy partC7 ⟨"pass123", ""⟩).1.isDiscovery = false ∧
      (getPasswordLegacy partC7 ⟨"", ""⟩).2 = .error "received empty password" ∧
      (getPasswordCurrent partC7 none ⟨"", ""⟩).2 = .error "received empty password" ∧
      (getPasswordFromChallengerF partC7
          (some ⟨"kms.example", true, "", "", "", ""⟩) ⟨"", ""⟩).2 =
        .error "received empty password" ∧
      (getPasswordFromChallengerF partC7
          (some ⟨"kms.example", true, "", "", "", ""⟩) ⟨"pass123", ""⟩).1 =
        BusPayload.discovery ⟨some partC7, "kms.example", true⟩ := by
  refine ⟨rfl, rfl, rfl, rfl, rfl, rfl⟩

/- ## Strategy unlock loop model (kcrypt/encryptor.go unlockPartition)

All three strategies run the same 10-attempt loop: optional sleep of
attempt seconds, findPartitionByLabel (blkid -L plus a ghw block scan),
the Locked check on /dev/mapper, a strategy-specific acquire-and-unlock
middle step, and a blkid visibility check.  `AttemptEnv` fixes the outcome
of each observable step for one attempt; the run returns the result and
the trace of observable events. -/

inductive UnlockErr where
  | partitionNotFound
  | blockScanFailed
  | partitionNotFoundInBlock
  | getPasswordFailed (msg : String)
  | unlockFailed (msg : String)
  | tpmUnlockFailed (msg : String)
  | notVisible
deriving DecidableEq, Repr

inductive Ev where
  | sleep (n : Nat)
  | blkidResolve
  | blockScan
  | statMapper
  | challengerRequest
  | tpmNVRead
  | luksUnlockCall
  | cryptsetupAttach
  | blkidVerify
deriving DecidableEq, Repr

/-- Events that spawn a subprocess (blkid, the plugin provider
executables, systemd-cryptsetup).  The mapper existence check is a stat;
the luks open/unlock goes through the in-process library; the TPM NV read
is TPM I/O. -/
def isSubprocessEv : Ev → Bool
  | .blkidResolve => true
  | .challengerRequest => true
  | .cryptsetupAttach => true
  | .blkidVerify => true
  | _ => false

def isResolveEv : Ev → Bool
  | .blkidResolve => true
  | _ => false

structure AttemptEnv where
  blkidOut : Option String
  ghwScan : Option Bool
  mapperExists : Bool
  passResult : Except String String
  unlockResult : Option String
  visibleOut : String

inductive UnlockResult where
  | success
  | exhausted (lastErr : Option UnlockErr)
deriving DecidableEq, Repr

/-- findPartitionByLabel: blkid -L (error or blank output is "partition
not found"), then the ghw block scan looking for the label. -/
def resolveStep (a : AttemptEnv) : Except UnlockErr Unit × List Ev :=
  match a.blkidOut with
  | none => (.error .partitionNotFound, [.blkidResolve])
  | some s =>
    if strTrimF s = "" then (.error .partitionNotFound, [.blkidResolve])
    else
      match a.ghwScan with
      | none => (.error .blockScanFailed, [.blkidResolve, .blockScan])
      | some true => (.ok (), [.blkidResolve, .blockScan])
      | some false => (.error .partitionNotFoundInBlock, [.blkidResolve, .blockScan])

/-- The strategy-specific middle of an attempt: passphrase acquisition and
unlock for the remote-KMS and local-TPM-NV strategies, systemd-cryptsetup
attach for the TPM+PCR strategy. -/
def middleStep (k : EncryptorKind) (a : AttemptEnv) :
    Except UnlockErr Unit × List Ev :=
  match k with
  | .remoteKMS =>
    match a.passResult with
    | .error m => (.error (.getPasswordFailed m), [.challengerRequest])
    | .ok _ =>
      match a.unlockResult with
      | some m => (.error (.unlockFailed m), [.challengerRequest, .luksUnlockCall])
      | none => (.ok (), [.challengerRequest, .luksUnlockCall])
  | .localTPMNV =>
    match a.passResult with
    | .error m => (.error (.getPasswordFailed m), [.tpmNVRead])
    | .ok _ =>
      match a.unlockResult with
      | some m => (.error (.unlockFailed m), [.tpmNVRead, .luksUnlockCall])
      | none => (.ok (), [.tpmNVRead, .luksUnlockCall])
  | .tpmWithPCR =>
    match a.unlockResult with
    | some m => (.error (.tpmUnlockFailed m), [.cryptsetupAttach])
    | none => (.ok (), [.cryptsetupAttach])

/-- Visibility verification: blkid -L must print something. -/
def visibilityStep (a : AttemptEnv) : Except UnlockErr Unit × List Ev :=
  if strTrimF a.visibleOut ≠ "" then (.ok (), [.blkidVerify])
  else (.error .notVisible, [.blkidVerify])

/-- One attempt of unlockPartition: resolve; return success when
/dev/mapper/name already exists; otherwise middle step then visibility. -/
def runAttempt (k : EncryptorKind) (a : AttemptEnv) :
    Except UnlockErr Unit × List Ev :=
  match (resolveStep a).1 with
  | .error e => (.error e, (resolveStep a).2)
  | .ok _ =>
    if a.mapperExists then (.ok (), (resolveStep a).2 ++ [.statMapper])
    else
      match (middleStep k a).1 with
      | .error e => (.error e, (resolveStep a).2 ++ [.statMapper] ++ (middleStep k a).2)
      | .ok _ =>
        ((visibilityStep a).1,
         (resolveStep a).2 ++ [.statMapper] ++ (middleStep k a).2 ++ (visibilityStep a).2)

/-- The attempt loop with its remaining attempt indices: sleep attempt
seconds before every attempt but the first, record errors in lastErr and
continue, report the exhausted lastErr when indices run out. -/
def unlockLoopAux (k : EncryptorKind) (env : Nat → AttemptEnv)
    (lastErr : Option UnlockErr) : List Nat → UnlockResult × List Ev
  | [] => (.exhausted lastErr, [])
  | i :: rest =>
    match (runAttempt k (env i)).1 with
    | .ok _ => (.success, (if i = 0 then [] else [Ev.sleep i]) ++ (runAttempt k (env i)).2)
    | .error e =>
      ((unlockLoopAux k env (some e) rest).1,
       (if i = 0 then [] else [Ev.sleep i]) ++ (runAttempt k (env i)).2 ++
         (unlockLoopAux k env (some e) rest).2)

/-- unlockPartition: ten attempts, indices 0..9. -/
def unlockPartitionRun (k : EncryptorKind) (env : Nat → AttemptEnv) :
    UnlockResult × List Ev :=
  unlockLoopAux k env none (List.range 10)

/-- The error one attempt would record (none when the attempt succeeds). -/
def attemptErr (k : EncryptorKind) (a : AttemptEnv) : Option UnlockErr :=
  match (runAttempt k a).1 with
  | .ok _ => none
  | .error e => some e

def countResolve (tr : List Ev) : Nat := (tr.filter isResolveEv).length

def sleepsOf (tr : List Ev) : List Nat :=
  tr.filterMap fun e =>
    match e with
    | .sleep n => some n
    | _ => none

theorem countResolve_append (a b : List Ev) :
    countResolve (a ++ b) = countResolve a + countResolve b := by
  simp [countResolve, List.filter_append]

theorem sleepsOf_append (a b : List Ev) :
    sleepsOf (a ++ b) = sleepsOf a ++ sleepsOf b := by
  simp [sleepsOf]

theorem resolveStep_trace (a : AttemptEnv) :
    countResolve (resolveStep a).2 = 1 ∧ sleepsOf (resolveStep a).2 = [] := by
  cases hb : a.blkidOut with
  | none => simp [resolveStep, hb]; decide
  | some s =>
    by_cases ht : strTrimF s = ""
    · simp [resolveStep, hb, ht]; decide
    · cases hg : a.ghwScan with
      | none => simp [resolveStep, hb, ht, hg]; decide
      | some b => cases b <;> (simp [resolveStep, hb, ht, hg]; decide)

theorem middleStep_trace (k : EncryptorKind) (a : AttemptEnv) :
    countResolve (middleStep k a).2 = 0 ∧ sleepsOf (middleStep k a).2 = [] := by
  cases k <;> cases hp : a.passResult <;> cases hu : a.unlockResult <;>
    (simp [middleStep, hp, hu]; decide)

theorem visibilityStep_trace (a : AttemptEnv) :
    countResolve (visibilityStep a).2 = 0 ∧ sleepsOf (visibilityStep a).2 = [] := by
  by_cases hv : strTrimF a.visibleOut ≠ "" <;> (simp [visibilityStep, hv]; decide)

theorem countResolve_nil : countResolve [] = 0 := rfl

theorem sleepsOf_nil : sleepsOf [] = [] := rfl

theorem countResolve_statMapper_cons (tr : List Ev) :
    countResolve (Ev.statMapper :: tr) = countResolve tr := by
  simp [countResolve, List.filter_cons, isResolveEv]

theorem sleepsOf_statMapper_cons (tr : List Ev) :
    sleepsOf (Ev.statMapper :: tr) = sleepsOf tr := by
  simp [sleepsOf, List.filterMap_cons]

theorem runAttempt_trace (k : EncryptorKind) (a : AttemptEnv) :
    countResolve (runAttempt k a).2 = 1 ∧ sleepsOf (runAttempt k a).2 = [] := by
  obtain ⟨hr1, hr2⟩ := resolveStep_trace a
  obtain ⟨hm1, hm2⟩ := middleStep_trace k a
  obtain ⟨hv1, hv2⟩ := visibilityStep_trace a
  cases hres : (resolveStep a).1 with
  | error e => simp [runAttempt, hres, hr1, hr2]
  | ok u =>
    cases hmap : a.mapperExists with
    | true =>
      simp [runAttempt, hres, hmap, countResolve_append, sleepsOf_append,
        countResolve_statMapper_cons, sleepsOf_statMapper_cons,
        countResolve_nil, sleepsOf_nil, hr1, hr2]
    | false =>
      cases hmid : (middleStep k a).1 with
      | error e =>
        simp [runAttempt, hres, hmap, hmid, countResolve_append, sleepsOf_append,
          countResolve_statMapper_cons, sleepsOf_statMapper_cons,
          countResolve_nil, sleepsOf_nil, hr1, hr2, hm1, hm2]
      | ok v =>
        simp [runAttempt, hres, hmap, hmid, countResolve_append, sleepsOf_append,
          countResolve_statMapper_cons, sleepsOf_statMapper_cons,
          countResolve_nil, sleepsOf_nil, hr1, hr2, hm1, hm2, hv1, hv2]

theorem countResolve_pre (i : Nat) :
    countResolve (if i = 0 then [] else [Ev.sleep i]) = 0 := by
  split <;> simp [countResolve, List.filter, isResolveEv]

theorem sleepsOf_pre (i : Nat) :
    sleepsOf (if i = 0 then [] else [Ev.sleep i]) = if i = 0 then [] else [i] := by
  split <;> simp [sleepsOf, List.filterMap]

theorem unlockLoopAux_count_le (k : EncryptorKind) (env : Nat → AttemptEnv) :
    ∀ (l : List Nat) (le : Option UnlockErr),
      countResolve (unlockLoopAux k env le l).2 ≤ l.length := by
  intro l
  induction l with
  | nil =>
    intro le
    simp [unlockLoopAux, countResolve_nil]
  | cons i rest ih =>
    intro le
    cases hatt : (runAttempt k (env i)).1 with
    | ok u =>
      simp [unlockLoopAux, hatt, countResolve_append, countResolve_pre,
        (runAttempt_trace k (env i)).1]
    | error e =>
      have := ih (some e)
      simp only [unlockLoopAux, hatt, countResolve_append, countResolve_pre,
        (runAttempt_trace k (env i)).1, List.length_cons]
      omega

theorem unlockLoopAux_sleeps (k : EncryptorKind) (env : Nat → AttemptEnv) :
    ∀ (n s : Nat) (le : Option UnlockErr),
      sleepsOf (unlockLoopAux k env le (List.range' s n)).2 =
        (List.range' s (countResolve (unlockLoopAux k env le (List.range' s n)).2)).filter
          (fun i => decide (0 < i)) := by
  intro n
  induction n with
  | zero =>
    intro s le
    simp [unlockLoopAux, sleepsOf_nil, countResolve_nil]
  | succ n ih =>
    intro s le
    rw [List.range'_succ]
    cases hatt : (runAttempt k (env s)).1 with
    | ok u =>
      simp only [unlockLoopAux, hatt, sleepsOf_append, countResolve_append,
        sleepsOf_pre, countResolve_pre, (runAttempt_trace k (env s)).1,
        (runAttempt_trace k (env s)).2, Nat.zero_add, List.append_nil]
      rw [List.range'_one]
      by_cases hs : s = 0
      · subst hs
        simp
      · simp [hs, Nat.pos_of_ne_zero hs]
    | error e =>
      have ihs := ih (s + 1) (some e)
      simp only [unlockLoopAux, hatt, sleepsOf_append, countResolve_append,
        sleepsOf_pre, countResolve_pre, (runAttempt_trace k (env s)).1,
        (runAttempt_trace k (env s)).2, Nat.zero_add, List.append_nil,
        List.nil_append]
      rw [ihs]
      rw [show 1 + countResolve (unlockLoopAux k env (some e) (List.range' (s + 1) n)).2 =
            countResolve (unlockLoopAux k env (some e) (List.range' (s + 1) n)).2 + 1 from
          Nat.add_comm _ _]
      rw [List.range'_succ]
      rw [List.filter_cons]
      by_cases hs : s = 0
      · subst hs
        simp
      · simp [hs, Nat.pos_of_ne_zero hs]

theorem getLastD_irrel (l : List Nat) (d1 d2 : Nat) (h : l ≠ []) :
    l.getLastD d1 = l.getLastD d2 := by
  cases l with
  | nil => exact absurd rfl h
  | cons a as => rw [List.getLastD_cons, List.getLastD_cons]

theorem unlockLoopAux_exhaust (k : EncryptorKind) (env : Nat → AttemptEnv) :
    ∀ (l : List Nat) (le : Option UnlockErr), l ≠ [] →
      (∀ i ∈ l, attemptErr k (env i) ≠ none) →
      (unlockLoopAux k env le l).1 =
        .exhausted (attemptErr k (env (l.getLastD 0))) := by
  intro l
  induction l with
  | nil =>
    intro le h _
    exact absurd rfl h
  | cons i rest ih =>
    intro le _ hall
    have hfail := hall i (by simp)
    cases hatt : (runAttempt k (env i)).1 with
    | ok u => exact absurd (by simp [attemptErr, hatt]) hfail
    | error e =>
      simp only [unlockLoopAux, hatt]
      cases hrest : rest with
      | nil =>
        simp [unlockLoopAux, List.getLastD_cons, List.getLastD, attemptErr, hatt]
      | cons r rs =>
        have hne : rest ≠ [] := by rw [hrest]; simp
        have hrec := ih (some e) hne (fun j hj => hall j (by simp [hj]))
        rw [← hrest]
        rw [hrec]
        rw [List.getLastD_cons]
        rw [getLastD_irrel rest i 0 hne]

theorem unlockLoopAux_all_attempts (k : EncryptorKind) (env : Nat → AttemptEnv) :
    ∀ (l : List Nat) (le : Option UnlockErr),
      (unlockLoopAux k env le l).1 ≠ .success →
      countResolve (unlockLoopAux k env le l).2 = l.length := by
  intro l
  induction l with
  | nil =>
    intro le _
    simp [unlockLoopAux, countResolve_nil]
  | cons i rest ih =>
    intro le hns
    cases hatt : (runAttempt k (env i)).1 with
    | ok u =>
      exfalso
      apply hns
      simp [unlockLoopAux, hatt]
    | error e =>
      have hns2 : (unlockLoopAux k env (some e) rest).1 ≠ .success := by
        intro hc
        apply hns
        simp [unlockLoopAux, hatt, hc]
      have := ih (some e) hns2
      simp only [unlockLoopAux, hatt, countResolve_append, countResolve_pre,
        (runAttempt_trace k (env i)).1, List.length_cons]
      omega

theorem unlockLoopAux_success (k : EncryptorKind) (env : Nat → AttemptEnv) :
    ∀ (n s : Nat) (le : Option UnlockErr),
      (unlockLoopAux k env le (List.range' s n)).1 = .success →
      ∃ j, j < n ∧
        countResolve (unlockLoopAux k env le (List.range' s n)).2 = j + 1 ∧
        attemptErr k (env (s + j)) = none ∧
        ∀ i, i < j → attemptErr k (env (s + i)) ≠ none := by
  intro n
  induction n with
  | zero =>
    intro s le h
    simp [unlockLoopAux] at h
  | succ n ih =>
    intro s le h
    rw [List.range'_succ] at h ⊢
    cases hatt : (runAttempt k (env s)).1 with
    | ok u =>
      refine ⟨0, by omega, ?_, ?_, ?_⟩
      · simp [unlockLoopAux, hatt, countResolve_append, countResolve_pre,
          (runAttempt_trace k (env s)).1]
      · simp [attemptErr, hatt]
      · intro i hi
        exact absurd hi (by omega)
    | error e =>
      simp only [unlockLoopAux, hatt] at h
      obtain ⟨j, hj, hcount, hok, hfails⟩ := ih (s + 1) (some e) h
      refine ⟨j + 1, by omega, ?_, ?_, ?_⟩
      · simp only [unlockLoopAux, hatt, countResolve_append, countResolve_pre,
          (runAttempt_trace k (env s)).1, Nat.zero_add]
        omega
      · rw [show s + (j + 1) = (s + 1) + j from by omega]
        exact hok
      · intro i hi
        cases i with
        | zero =>
          intro hc
          rw [Nat.add_zero] at hc
          simp [attemptErr, hatt] at hc
        | succ i2 =>
          rw [show s + (i2 + 1) = (s + 1) + i2 from by omega]
          exact hfails i2 (by omega)

/-- Claim C2: the per-label unlock loop of every strategy makes at most 10
attempts, sleeps attempt seconds before attempt n for n at least 1, keeps
retrying past any intermediate failure, and on exhaustion reports the
error recorded by the last attempt. -/
theorem unlock_retry_bound_confirmed (k : EncryptorKind) (env : Nat → AttemptEnv) :
    countResolve (unlockPartitionRun k env).2 ≤ 10
    ∧ sleepsOf (unlockPartitionRun k env).2 =
        (List.range (countResolve (unlockPartitionRun k env).2)).filter
          (fun i => decide (0 < i))
    ∧ ((∀ i, i < 10 → attemptErr k (env i) ≠ none) →
        (unlockPartitionRun k env).1 = .exhausted (attemptErr k (env 9)))
    ∧ ((unlockPartitionRun k env).1 ≠ .success →
        countResolve (unlockPartitionRun k env).2 = 10)
    ∧ (∀ i, i < 9 → attemptErr k (env i) ≠ none →
        countResolve (unlockPartitionRun k env).2 ≠ i + 1) := by
  have hrange : List.range 10 = List.range' 0 10 := List.range_eq_range' 10
  refine ⟨?_, ?_, ?_, ?_, ?_⟩
  · have := unlockLoopAux_count_le k env (List.range 10) none
    simpa [unlockPartitionRun] using this
  · simp only [unlockPartitionRun, hrange, List.range_eq_range']
    exact unlockLoopAux_sleeps k env 10 0 none
  · intro hall
    unfold unlockPartitionRun
    have := unlockLoopAux_exhaust k env (List.range 10) none (by decide)
      (fun i hi => hall i (List.mem_range.mp hi))
    rw [show (List.range 10).getLastD 0 = 9 from by decide] at this
    exact this
  · intro hns
    unfold unlockPartitionRun at hns ⊢
    rw [hrange] at hns ⊢
    have := unlockLoopAux_all_attempts k env (List.range' 0 10) none hns
    simpa using this
  · intro i hi hfail hceq
    by_cases hsucc : (unlockPartitionRun k env).1 = .success
    · unfold unlockPartitionRun at hsucc hceq
      rw [hrange] at hsucc hceq
      obtain ⟨j, hj, hcount, hok, hfails⟩ := unlockLoopAux_success k env 10 0 none hsucc
      rw [hcount] at hceq
      have hji : j = i := by omega
      subst hji
      rw [Nat.zero_add] at hok
      exact hfail hok
    · unfold unlockPartitionRun at hsucc hceq
      rw [hrange] at hsucc hceq
      have := unlockLoopAux_all_attempts k env (List.range' 0 10) none hsucc
      rw [this] at hceq
      simp at hceq
      omega

/-- An environment where every attempt fails the visibility check. -/
def envC2 : Nat → AttemptEnv :=
  fun _ => ⟨some "/dev/sda2", some true, false, Except.ok "pw", none, ""⟩

/-- Witness for C2: with every attempt failing, the run exhausts after 10
attempts, reporting the last recorded error. -/
theorem unlock_retry_bound_witness :
    (∀ i, i < 10 → attemptErr .remoteKMS (envC2 i) ≠ none) ∧
      (unlockPartitionRun .remoteKMS envC2).1 =
        .exhausted (attemptErr .remoteKMS (envC2 9)) ∧
      countResolve (unlockPartitionRun .remoteKMS envC2).2 ≤ 10 :=
  ⟨by decide,
   (unlock_retry_bound_confirmed .remoteKMS envC2).2.2.1 (by decide),
   (unlock_retry_bound_confirmed .remoteKMS envC2).1⟩

/- ## Claim C3: idempotent unlock -/

/-- Claim C3 as stated: with the mapper already present (and the label
resolving, which defines the mapper name), unlock succeeds with NO
subprocess invocation beyond the existence check. -/
def claimC3Statement : Prop :=
  ∀ (k : EncryptorKind) (env : Nat → AttemptEnv),
    (resolveStep (env 0)).1 = .ok () →
    (env 0).mapperExists = true →
      (unlockPartitionRun k env).1 = .success ∧
      (unlockPartitionRun k env).2.filter isSubprocessEv = []

/-- An environment whose first attempt resolves and finds the mapper. -/
def envC3 : Nat → AttemptEnv :=
  fun _ => ⟨some "/dev/sda2", some true, true, Except.ok "pw", none, "/dev/sda2"⟩

/-- Claim C3 is false on the code: the loop resolves the label first, and
that resolution runs the blkid subprocess before the existence check, so
the trace of the already-unlocked fast path contains a subprocess event. -/
theorem idempotent_unlock_counterexample : ¬ claimC3Statement := by
  intro h
  have h2 := (h .remoteKMS envC3 rfl rfl).2
  exact absurd h2 (by decide)

theorem resolveStep_ok_trace (a : AttemptEnv) (h : (resolveStep a).1 = .ok ()) :
    resolveStep a = (.ok (), [Ev.blkidResolve, Ev.blockScan]) := by
  cases hb : a.blkidOut with
  | none => simp [resolveStep, hb] at h
  | some s =>
    by_cases ht : strTrimF s = ""
    · simp [resolveStep, hb, ht] at h
    · cases hg : a.ghwScan with
      | none => simp [resolveStep, hb, ht, hg] at h
      | some b =>
        cases b
        · simp [resolveStep, hb, ht, hg] at h
        · simp [resolveStep, hb, ht, hg]

/-- Claim C3 amended: when the mapper already exists and the label
resolves, unlock([L]) succeeds on the first attempt and its whole trace is
the blkid label resolution, the block scan and the mapper existence check:
no sleep, no passphrase acquisition, no unlock call, no visibility check.
The label resolution is the single subprocess beyond the existence check. -/
theorem idempotent_unlock_amended (k : EncryptorKind) (env : Nat → AttemptEnv)
    (hres : (resolveStep (env 0)).1 = .ok ())
    (hmap : (env 0).mapperExists = true) :
    unlockPartitionRun k env =
      (.success, [Ev.blkidResolve, Ev.blockScan, Ev.statMapper]) := by
  have htr := resolveStep_ok_trace (env 0) hres
  have hrun : runAttempt k (env 0) =
      (.ok (), [Ev.blkidResolve, Ev.blockScan, Ev.statMapper]) := by
    unfold runAttempt
    rw [htr]
    simp [hmap]
  unfold unlockPartitionRun
  rw [show List.range 10 = 0 :: List.range' 1 9 from by decide]
  simp [unlockLoopAux, hrun]

/-- Witness for the amended C3 at a concrete environment. -/
theorem idempotent_unlock_amended_witness :
    (resolveStep (envC3 0)).1 = .ok () ∧ (envC3 0).mapperExists = true ∧
      unlockPartitionRun .localTPMNV envC3 =
        (.success, [Ev.blkidResolve, Ev.blockScan, Ev.statMapper]) :=
  ⟨rfl, rfl, idempotent_unlock_amended .localTPMNV envC3 rfl rfl⟩

/- ## Claim C6: LUKS unlock wrapper (kcrypt/unlock.go luksUnlockWithLogger) -/

inductive LuksErr where
  | deviceNotAccessible
  | unlockFailedAfterRetries (msg : String)
  | mapperNotCreated
deriving DecidableEq, Repr

inductive LEv where
  | statDevice
  | statMapper
  | luksOpen
  | luksUnlockSlot
  | devClose
  | sleepSec (n : Nat)
  | settle (timeoutSec : Nat)
  | dmsetupLs
  | statMapperFinal
deriving DecidableEq, Repr

/-- Outcomes of every observable step of luksUnlockWithLogger: the device
and mapper stats, the per-attempt luks.Open and Unlock results, the
dmsetup poll outputs (none is a command error) and the final mapper stat. -/
structure LuksEnv where
  deviceExists : Bool
  mapperExists : Bool
  openErr : Nat → Option String
  unlockErr : Nat → Option String
  dmsetupOut : Nat → Option String
  mapperAfter : Bool

/-- The open-and-unlock retry loop: on an open or unlock failure record it,
sleep attempt seconds, settle 10 s and continue; on success close the
handle and break with no recorded error. -/
def luksLoop (env : LuksEnv) : List Nat → Option String → Option String × List LEv
  | [], acc => (acc, [])
  | i :: rest, acc =>
    match env.openErr i with
    | some e =>
      ((luksLoop env rest (some e)).1,
       [LEv.luksOpen, LEv.sleepSec i, LEv.settle 10] ++ (luksLoop env rest (some e)).2)
    | none =>
      match env.unlockErr i with
      | some e =>
        ((luksLoop env rest (some e)).1,
         [LEv.luksOpen, LEv.luksUnlockSlot, LEv.devClose, LEv.sleepSec i, LEv.settle 10] ++
           (luksLoop env rest (some e)).2)
      | none => (none, [LEv.luksOpen, LEv.luksUnlockSlot, LEv.devClose])

/-- The dmsetup ls polling loop: up to 5 probes, stopping when the mapper
name appears in the output, sleeping 1 s otherwise. -/
def dmPoll (env : LuksEnv) (mapper : String) : List Nat → List LEv
  | [] => []
  | i :: rest =>
    match env.dmsetupOut i with
    | some out =>
      if strContains out mapper then [LEv.dmsetupLs]
      else LEv.dmsetupLs :: LEv.sleepSec 1 :: dmPoll env mapper rest
    | none => LEv.dmsetupLs :: LEv.sleepSec 1 :: dmPoll env mapper rest

/-- luksUnlockWithLogger: device stat, mapper fast path, 3-attempt retry
loop, 30 s settle, dmsetup polling, final mapper stat. -/
def luksUnlockRun (env : LuksEnv) (mapper : String) : Except LuksErr Unit × List LEv :=
  if !env.deviceExists then (.error .deviceNotAccessible, [.statDevice])
  else if env.mapperExists then (.ok (), [.statDevice, .statMapper])
  else
    match (luksLoop env (List.range 3) none).1 with
    | some e =>
      (.error (.unlockFailedAfterRetries e),
       [.statDevice, .statMapper] ++ (luksLoop env (List.range 3) none).2)
    | none =>
      if env.mapperAfter then
        (.ok (),
         [.statDevice, .statMapper] ++ (luksLoop env (List.range 3) none).2 ++
           [.settle 30] ++ dmPoll env mapper (List.range 5) ++ [.statMapperFinal])
      else
        (.error .mapperNotCreated,
         [.statDevice, .statMapper] ++ (luksLoop env (List.range 3) none).2 ++
           [.settle 30] ++ dmPoll env mapper (List.range 5) ++ [.statMapperFinal])

/-- Did attempt i fail (in its open or its unlock step)? -/
def luksAttemptFails (env : LuksEnv) (i : Nat) : Bool :=
  (env.openErr i).isSome || (env.unlockErr i).isSome

def isOpenEv : LEv → Bool
  | .luksOpen => true
  | _ => false

def countOpen (tr : List LEv) : Nat := (tr.filter isOpenEv).length

def sleepsOfL (tr : List LEv) : List Nat :=
  tr.filterMap fun e =>
    match e with
    | .sleepSec n => some n
    | _ => none

theorem countOpen_append (a b : List LEv) :
    countOpen (a ++ b) = countOpen a + countOpen b := by
  simp [countOpen, List.filter_append]

theorem sleepsOfL_append (a b : List LEv) :
    sleepsOfL (a ++ b) = sleepsOfL a ++ sleepsOfL b := by
  simp [sleepsOfL]

theorem countOpen_tr1 (i : Nat) :
    countOpen [LEv.luksOpen, LEv.sleepSec i, LEv.settle 10] = 1 := by
  simp [countOpen, List.filter, isOpenEv]

theorem countOpen_tr2 (i : Nat) :
    countOpen [LEv.luksOpen, LEv.luksUnlockSlot, LEv.devClose,
      LEv.sleepSec i, LEv.settle 10] = 1 := by
  simp [countOpen, List.filter, isOpenEv]

theorem countOpen_tr3 :
    countOpen [LEv.luksOpen, LEv.luksUnlockSlot, LEv.devClose] = 1 := by
  decide

theorem luksLoop_count_le (env : LuksEnv) :
    ∀ (l : List Nat) (acc : Option String),
      countOpen (luksLoop env l acc).2 ≤ l.length := by
  intro l
  induction l with
  | nil =>
    intro acc
    simp [luksLoop, countOpen]
  | cons i rest ih =>
    intro acc
    cases ho : env.openErr i with
    | some e =>
      have := ih (some e)
      simp only [luksLoop, ho, countOpen_append, countOpen_tr1, List.length_cons]
      omega
    | none =>
      cases hu : env.unlockErr i with
      | some e =>
        have := ih (some e)
        simp only [luksLoop, ho, hu, countOpen_append, countOpen_tr2, List.length_cons]
        omega
      | none =>
        simp only [luksLoop, ho, hu, countOpen_tr3, List.length_cons]
        omega

theorem luksLoop_sleeps (env : LuksEnv) :
    ∀ (l : List Nat) (acc : Option String),
      sleepsOfL (luksLoop env l acc).2 =
        l.takeWhile (fun i => luksAttemptFails env i) := by
  intro l
  induction l with
  | nil =>
    intro acc
    simp [luksLoop, sleepsOfL]
  | cons i rest ih =>
    intro acc
    cases ho : env.openErr i with
    | some e =>
      have hf : luksAttemptFails env i = true := by simp [luksAttemptFails, ho]
      simp only [luksLoop, ho, sleepsOfL_append, ih (some e), List.takeWhile_cons, hf]
      simp [sleepsOfL, List.filterMap]
    | none =>
      cases hu : env.unlockErr i with
      | some e =>
        have hf : luksAttemptFails env i = true := by simp [luksAttemptFails, ho, hu]
        simp only [luksLoop, ho, hu, sleepsOfL_append, ih (some e), List.takeWhile_cons, hf]
        simp [sleepsOfL, List.filterMap]
      | none =>
        have hf : luksAttemptFails env i = false := by simp [luksAttemptFails, ho, hu]
        simp only [luksLoop, ho, hu, List.takeWhile_cons, hf]
        simp [sleepsOfL, List.filterMap]

/-- Claim C6 as stated: mapper present means immediate success (for any
device state); at most 3 attempts; post-unlock mapper absence means the
mapper-not-created error. -/
def claimC6Statement : Prop :=
  ∀ (env : LuksEnv) (mapper : String),
    (env.mapperExists = true → (luksUnlockRun env mapper).1 = .ok ())
    ∧ countOpen (luksUnlockRun env mapper).2 ≤ 3
    ∧ (env.mapperExists = false → (luksLoop env (List.range 3) none).1 = none →
        env.mapperAfter = false →
        (luksUnlockRun env mapper).1 = .error .mapperNotCreated)

/-- A state where the device node is gone but the mapper exists. -/
def envC6 : LuksEnv :=
  ⟨false, true, fun _ => none, fun _ => none, fun _ => none, true⟩

/-- Claim C6 is false on the code: the wrapper stats the device before the
mapper fast path, so with the device node absent and the mapper present it
returns the device-not-accessible error instead of success. -/
theorem luks_unlock_wrapper_counterexample : ¬ claimC6Statement := by
  intro h
  have h2 := (h envC6 "sda2").1 rfl
  have hv : (luksUnlockRun envC6 "sda2").1 = .error .deviceNotAccessible := rfl
  rw [hv] at h2
  exact Except.noConfusion h2

/-- Claim C6 amended: provided the device node is accessible, the mapper
fast path succeeds immediately with only the two stats; the retry loop
opens at most 3 times and its sleeps are the indices 0,1,2 of the failed
attempts in order (a prefix of 0/1/2); and when the loop succeeds but the
mapper is still absent after the settle and the dmsetup polling, the call
fails with the mapper-not-created error. -/
theorem luks_unlock_wrapper_amended (env : LuksEnv) (mapper : String)
    (hdev : env.deviceExists = true) :
    (env.mapperExists = true →
        luksUnlockRun env mapper = (.ok (), [LEv.statDevice, LEv.statMapper]))
    ∧ countOpen (luksLoop env (List.range 3) none).2 ≤ 3
    ∧ sleepsOfL (luksLoop env (List.range 3) none).2 =
        (List.range 3).takeWhile (fun i => luksAttemptFails env i)
    ∧ (env.mapperExists = false → (luksLoop env (List.range 3) none).1 = none →
        env.mapperAfter = false →
        (luksUnlockRun env mapper).1 = .error .mapperNotCreated) := by
  refine ⟨?_, ?_, ?_, ?_⟩
  · intro hmap
    simp [luksUnlockRun, hdev, hmap]
  · simpa using luksLoop_count_le env (List.range 3) none
  · exact luksLoop_sleeps env (List.range 3) none
  · intro hmap hloop hafter
    simp [luksUnlockRun, hdev, hmap, hloop, hafter]

/-- Attempt 0 fails to open, attempt 1 unlocks, yet the mapper node never
shows up. -/
def envC6w : LuksEnv :=
  ⟨true, false, fun i => if i = 0 then some "open busy" else none,
   fun _ => none, fun _ => some "crypt sda2", false⟩

/-- Witness for the amended C6 at a concrete environment. -/
theorem luks_unlock_wrapper_amended_witness :
    countOpen (luksLoop envC6w (List.range 3) none).2 ≤ 3 ∧
      sleepsOfL (luksLoop envC6w (List.range 3) none).2 =
        (List.range 3).takeWhile (fun i => luksAttemptFails envC6w i) ∧
      (luksUnlockRun envC6w "sda2").1 = .error .mapperNotCreated :=
  ⟨(luks_unlock_wrapper_amended envC6w "sda2" rfl).2.1,
   (luks_unlock_wrapper_amended envC6w "sda2" rfl).2.2.1,
   (luks_unlock_wrapper_amended envC6w "sda2" rfl).2.2.2 rfl rfl rfl⟩

end KairosSpec
